import Mathlib

/-!
Shallow embedding of the Upbit auto-trading strategy module
(`auto_trading_strategy.py`, class `TradingStrategy`) and of the auto-trading
worker thread (`auto_trading_ui.py`, class `AutoTradingThread`), together with
theorems settling the specification claims about them.

Conventions of the embedding:
* Python floats are modelled as rationals (`ℚ`); all arithmetic is exact.
* Timestamps (`datetime.now()`, `entry_time`) are modelled as rationals
  measured in hours, so that `holding_hours = now - entry_time` directly.
* The exchange collaborator (`self.api`) is modelled by an explicit `Env`
  record carrying the responses one cycle observes.
* Fallible paths keep their shape: a Python function that returns `False` /
  an error dict on failure becomes a Lean function returning the same
  discriminated result.
-/

namespace Upbit

/-- Trading action strings of the source: `"BUY"`, `"SELL"`, `"HOLD"` from
`generate_signal`, and the risk-management exit actions `"STOP_LOSS"`,
`"TAKE_PROFIT"`, `"TIME_LIMIT"` from `check_risk_management`. -/
inductive Signal where
  | BUY
  | SELL
  | HOLD
  | STOP_LOSS
  | TAKE_PROFIT
  | TIME_LIMIT
deriving DecidableEq, Repr

/-- The membership test `signal in ["SELL", "STOP_LOSS", "TAKE_PROFIT", "TIME_LIMIT"]`
used by `execute_trade`, `simulate_trade` and `get_performance_summary`. -/
def Signal.isExit : Signal → Bool
  | .SELL => true
  | .STOP_LOSS => true
  | .TAKE_PROFIT => true
  | .TIME_LIMIT => true
  | _ => false

/-- The strategy configuration dictionary (`get_default_config` lists every
key the code reads). Periods are natural numbers; thresholds are exact
rationals. -/
structure Config where
  market : String
  trade_interval : Nat
  simulation_mode : Bool
  max_investment_ratio : ℚ
  min_order_amount : ℚ
  short_ma_period : Nat
  long_ma_period : Nat
  rsi_period : Nat
  rsi_oversold : ℚ
  rsi_overbought : ℚ
  stop_loss_ratio : ℚ
  take_profit_ratio : ℚ
  max_holding_time : ℚ
  min_volume_threshold : ℚ
  price_change_threshold : ℚ
deriving DecidableEq, Repr

/-- `get_default_config` of the source, with the float literals as exact
rationals (`0.1 = 1/10`, `-0.03 = -3/100`, `0.05 = 5/100`, `0.01 = 1/100`). -/
def get_default_config : Config :=
  { market := "KRW-BTC"
    trade_interval := 300
    simulation_mode := true
    max_investment_ratio := 1/10
    min_order_amount := 5000
    short_ma_period := 5
    long_ma_period := 20
    rsi_period := 14
    rsi_oversold := 30
    rsi_overbought := 70
    stop_loss_ratio := -3/100
    take_profit_ratio := 5/100
    max_holding_time := 24
    min_volume_threshold := 1000000
    price_change_threshold := 1/100 }

/-- The two candle fields `analyze_market` reads: `trade_price` and
`candle_acc_trade_volume`. -/
structure Candle where
  trade_price : ℚ
  candle_acc_trade_volume : ℚ
deriving DecidableEq, Repr

/-- Python list slice `l[-n:]`: the last `n` elements when `n > 0`, and the
whole list when `n = 0` (Python reads `l[-0:]` as `l[0:]`). -/
def sliceLast (l : List ℚ) (n : Nat) : List ℚ :=
  if n = 0 then l else l.drop (l.length - n)

/-- `calculate_moving_average(prices, period)`: `None` when
`len(prices) < period`, else the mean of the last `period` prices. -/
def calculate_moving_average (prices : List ℚ) (period : Nat) : Option ℚ :=
  if prices.length < period then none
  else some ((sliceLast prices period).sum / period)

/-- The list comprehension `[prices[i] - prices[i-1] for i in range(1, len(prices))]`
of `calculate_rsi`. -/
def deltasOf : List ℚ → List ℚ
  | a :: b :: rest => (b - a) :: deltasOf (b :: rest)
  | _ => []

/-- `gains = [delta if delta > 0 else 0 for delta in deltas]`. -/
def gainsOf (prices : List ℚ) : List ℚ :=
  (deltasOf prices).map fun delta => if 0 < delta then delta else 0

/-- `losses = [-delta if delta < 0 else 0 for delta in deltas]`. -/
def lossesOf (prices : List ℚ) : List ℚ :=
  (deltasOf prices).map fun delta => if delta < 0 then -delta else 0

/-- `calculate_rsi(prices, period)` of the source: neutral `50` when fewer
than `period + 1` prices are available, `100` when the average loss over the
last `period` deltas is `0`, else `100 - 100 / (1 + rs)` with
`rs = avg_gain / avg_loss`. -/
def calculate_rsi (prices : List ℚ) (period : Nat) : ℚ :=
  if prices.length < period + 1 then 50
  else
    let avg_gain := (sliceLast (gainsOf prices) period).sum / period
    let avg_loss := (sliceLast (lossesOf prices) period).sum / period
    if avg_loss = 0 then 100
    else
      let rs := avg_gain / avg_loss
      100 - (100 / (1 + rs))

/-- The dictionary `analyze_market` builds in its success branch. -/
structure Snapshot where
  current_price : ℚ
  price_change_ratio : ℚ
  short_ma : ℚ
  long_ma : ℚ
  rsi : ℚ
  current_volume : ℚ
  avg_volume : ℚ
  volume_ratio : ℚ
deriving DecidableEq, Repr

/-- Result of `analyze_market`. `failed` models the exception paths of the
Python function — the `IndexError` on `prices[-1]` when the candle list is
empty with `long_ma_period = 0`, and the `TypeError` raised by the logging
f-string when a moving average is `None` (possible only when a MA period
exceeds the candle count); `run_strategy` catches either and reports an
error-status cycle result, exactly as it does for `insufficient_data`. -/
inductive Analysis where
  | insufficient_data
  | failed
  | success (s : Snapshot)
deriving DecidableEq, Repr

/-- `analyze_market(candles)`: `insufficient_data` when
`len(candles) < long_ma_period`, else the snapshot of prices, moving
averages, RSI, price change and volume ratio. -/
def analyze_market (cfg : Config) (candles : List Candle) : Analysis :=
  if candles.length < cfg.long_ma_period then .insufficient_data
  else
    let prices := candles.map (·.trade_price)
    let volumes := candles.map (·.candle_acc_trade_volume)
    match prices.getLast?, calculate_moving_average prices cfg.short_ma_period,
        calculate_moving_average prices cfg.long_ma_period with
    | some current_price, some short_ma, some long_ma =>
        let prev_price :=
          if 1 < prices.length then prices.getD (prices.length - 2) 0 else current_price
        let current_volume := volumes.getLast?.getD 0
        let avg_volume := (sliceLast volumes 5).sum / ((min 5 volumes.length : Nat) : ℚ)
        .success
          { current_price := current_price
            price_change_ratio := (current_price - prev_price) / prev_price
            short_ma := short_ma
            long_ma := long_ma
            rsi := calculate_rsi prices cfg.rsi_period
            current_volume := current_volume
            avg_volume := avg_volume
            volume_ratio := if 0 < avg_volume then current_volume / avg_volume else 1 }
    | _, _, _ => .failed

/-- `generate_signal(analysis)` of the source; `hasPos` is the truthiness of
`self.current_position` that the Python method reads. The `if`/`elif` chain is
kept exactly: when the BUY guard matches but RSI is not above the oversold
threshold, control falls to the final `return "HOLD"` without trying the
`elif` branches. -/
def generate_signal (cfg : Config) (hasPos : Bool) (analysis : Analysis) : Signal :=
  match analysis with
  | .success s =>
      if s.volume_ratio < 1/2 then .HOLD
      else if |s.price_change_ratio| < cfg.price_change_threshold then .HOLD
      else if s.short_ma > s.long_ma ∧ s.rsi < cfg.rsi_overbought ∧ hasPos = false then
        if s.rsi > cfg.rsi_oversold then .BUY else .HOLD
      else if s.short_ma < s.long_ma ∧ s.rsi > cfg.rsi_oversold ∧ hasPos = true then .SELL
      else if hasPos = true then
        if s.rsi > cfg.rsi_overbought then .SELL else .HOLD
      else .HOLD
  | _ => .HOLD

/-- The `self.current_position` dictionary: entry price, entry time (hours)
and the invested amount. -/
structure Position where
  entry_price : ℚ
  entry_time : ℚ
  amount : ℚ
deriving DecidableEq, Repr

/-- `check_risk_management(current_price)`: for an open position, in priority
order stop loss, take profit, holding-time limit, else `none`; `none`
immediately when no position is open. `now` stands for `datetime.now()` in
hours, so `holding_hours = now - entry_time`. -/
def check_risk_management (cfg : Config) (now : ℚ) (position : Option Position)
    (current_price : ℚ) : Option Signal :=
  match position with
  | none => none
  | some pos =>
      let profit_ratio := (current_price - pos.entry_price) / pos.entry_price
      if profit_ratio ≤ cfg.stop_loss_ratio then some .STOP_LOSS
      else if profit_ratio ≥ cfg.take_profit_ratio then some .TAKE_PROFIT
      else
        let holding_hours := now - pos.entry_time
        if holding_hours ≥ cfg.max_holding_time then some .TIME_LIMIT
        else none

/-- One entry of `self.trade_history`. Python live-mode records simply lack
the `profit_krw` (and, for BUY, `profit_ratio`) keys; optional fields model
key absence, and `simulation` is `true` exactly on the records that carry the
`"simulation": True` key. -/
structure TradeRecord where
  action : Signal
  price : ℚ
  amount : ℚ
  profit_ratio : Option ℚ
  profit_krw : Option ℚ
  simulation : Bool
deriving DecidableEq, Repr

/-- The mutable strategy state: `self.current_position`, `self.trade_history`
and `self.last_trade_time`. -/
structure TState where
  current_position : Option Position
  trade_history : List TradeRecord
  last_trade_time : Option ℚ
deriving DecidableEq, Repr

/-- What one cycle observes from the outside world: the candle list
`get_candle_data` returns (already sorted oldest-first; `[]` on a fetch
failure), the wall-clock time in hours, and the Exchange Client responses —
whether `get_accounts` succeeds, the KRW and crypto balances it reports, and
whether `place_order` answers with success. -/
structure Env where
  candles : List Candle
  now : ℚ
  accounts_ok : Bool
  krw_balance : ℚ
  crypto_balance : ℚ
  order_ok : Bool
deriving DecidableEq, Repr

/-- `calculate_order_amount()`: `0` when `get_accounts` fails or when the
investable amount `krw_balance * max_investment_ratio` is below
`min_order_amount`, else that amount. -/
def calculate_order_amount (cfg : Config) (env : Env) : ℚ :=
  if env.accounts_ok = false then 0
  else
    let max_amount := env.krw_balance * cfg.max_investment_ratio
    if max_amount < cfg.min_order_amount then 0 else max_amount

/-- `simulate_trade(signal, current_price, amount)`: BUY always succeeds
(default amount `100000`), overwriting the position and appending a record;
an exit requires an open position and appends a record carrying both
`profit_ratio` and `profit_krw`; any other signal fails with no effect.
Returns the Python `bool` together with the updated state. -/
def simulate_trade (env : Env) (st : TState) (signal : Signal) (current_price : ℚ)
    (amount : Option ℚ) : Bool × TState :=
  match signal with
  | .BUY =>
      let amt := amount.getD 100000
      (true,
        { st with
          current_position := some ⟨current_price, env.now, amt⟩
          trade_history := st.trade_history ++
            [⟨.BUY, current_price, amt, none, none, true⟩] })
  | .HOLD => (false, st)
  | _ =>
      match st.current_position with
      | none => (false, st)
      | some pos =>
          let profit_ratio := (current_price - pos.entry_price) / pos.entry_price
          let profit_krw := pos.amount * profit_ratio
          (true,
            { st with
              current_position := none
              trade_history := st.trade_history ++
                [⟨signal, current_price, pos.amount, some profit_ratio,
                  some profit_krw, true⟩] })

/-- `execute_trade(signal, current_price, amount)`. In simulation mode it
defers to `simulate_trade`. Live BUY computes the order amount if none was
given, rejects below `min_order_amount`, then submits a market buy; on
success it records the position and appends a BUY record. A live exit
requires an open position, re-reads the held crypto balance from the
exchange (`get_accounts`), and — when that balance is zero or less — submits
no order, clears the local position and fails; otherwise it submits a market
sell and on success appends an exit record (with `profit_ratio` but no
`profit_krw`) and clears the position. Every other path fails with the state
unchanged. -/
def execute_trade (cfg : Config) (env : Env) (st : TState) (signal : Signal)
    (current_price : ℚ) (amount : Option ℚ) : Bool × TState :=
  if cfg.simulation_mode then simulate_trade env st signal current_price amount
  else
    match signal with
    | .BUY =>
        let amt := amount.getD (calculate_order_amount cfg env)
        if amt < cfg.min_order_amount then (false, st)
        else if env.order_ok then
          (true,
            { st with
              current_position := some ⟨current_price, env.now, amt⟩
              trade_history := st.trade_history ++
                [⟨.BUY, current_price, amt, none, none, false⟩] })
        else (false, st)
    | .HOLD => (false, st)
    | _ =>
        match st.current_position with
        | none => (false, st)
        | some pos =>
            if env.accounts_ok = false then (false, st)
            else if env.crypto_balance ≤ 0 then
              (false, { st with current_position := none })
            else if env.order_ok then
              let profit_ratio := (current_price - pos.entry_price) / pos.entry_price
              (true,
                { st with
                  current_position := none
                  trade_history := st.trade_history ++
                    [⟨signal, current_price, env.crypto_balance, some profit_ratio,
                      none, false⟩] })
            else (false, st)

/-- The dictionary `run_strategy` returns: `"status": "error"` with a
message, or `"status": "success"` with the action taken, the price, and the
`"success"` flag of the execution (`none` models the HOLD result, which
carries no `"success"` key). -/
inductive CycleResult where
  | error_result (message : String)
  | success (action : Signal) (price : ℚ) (ok : Option Bool)
deriving DecidableEq, Repr

/-- `run_strategy()` with the signal generator abstracted as a parameter, so
that non-consultation of the generator on risk-exit cycles is provable as
insensitivity to `gen`. The error messages of the source are
`"캔들 데이터 조회 실패"` (candle fetch failed) and `"시장 분석 실패"`
(market analysis failed); they are transliterated here. -/
def run_strategy_with (gen : Config → Bool → Analysis → Signal) (cfg : Config)
    (env : Env) (st : TState) : CycleResult × TState :=
  if env.candles = [] then (.error_result "candle fetch failed", st)
  else
    match analyze_market cfg env.candles with
    | .insufficient_data => (.error_result "market analysis failed", st)
    | .failed => (.error_result "market analysis failed", st)
    | .success s =>
        let current_price := s.current_price
        match check_risk_management cfg env.now st.current_position current_price with
        | some risk_signal =>
            let r := execute_trade cfg env st risk_signal current_price none
            (.success risk_signal current_price (some r.1), r.2)
        | none =>
            let signal := gen cfg st.current_position.isSome (.success s)
            if signal = .BUY ∨ signal = .SELL then
              let r := execute_trade cfg env st signal current_price none
              (.success signal current_price (some r.1),
                { r.2 with last_trade_time := some env.now })
            else
              (.success .HOLD current_price none, st)

/-- `run_strategy()` of the source: one strategy cycle, with the generator of
`generate_signal`. -/
def run_strategy (cfg : Config) (env : Env) (st : TState) : CycleResult × TState :=
  run_strategy_with generate_signal cfg env st

/-- The action a cycle result reports, when it has one. -/
def cycle_action : CycleResult → Option Signal
  | .error_result _ => none
  | .success a _ _ => some a

/-- What one iteration of `AutoTradingThread.run` observes from
`strategy.run_strategy()`: either the returned cycle result — `run_strategy`
wraps its whole body in `try`/`except` and converts any in-cycle exception
(for example a candle fetch failure) into an error-status result — or an
exception escaping the result handling inside the thread loop itself (signal
emission / sleeping). -/
inductive ThreadOutcome where
  | cycle_result (r : CycleResult)
  | loop_exception
deriving DecidableEq, Repr

/-- The delay in milliseconds before the next cycle, per
`AutoTradingThread.run`: `msleep(trade_interval * 1000)` after any returned
result, error status or success status alike, and `msleep(60000)` only in
the thread's own `except` branch. -/
def thread_delay_ms (cfg : Config) (outcome : ThreadOutcome) : Nat :=
  match outcome with
  | .cycle_result _ => cfg.trade_interval * 1000
  | .loop_exception => 60000

/-- The dictionary `get_performance_summary` returns. The empty-history early
return of the source carries only zeros (and no `current_position` key); it
is modelled with the same zeros. -/
structure PerformanceSummary where
  total_trades : Nat
  total_profit_krw : ℚ
  win_rate : ℚ
  current_position : Bool
deriving DecidableEq, Repr

/-- `get_performance_summary()`: over the exit records
(`SELL`/`STOP_LOSS`/`TAKE_PROFIT`/`TIME_LIMIT`), the trade count, the sum of
`t.get("profit_krw", 0)`, and the percentage of records with
`t.get("profit_ratio", 0) > 0`. -/
def get_performance_summary (st : TState) : PerformanceSummary :=
  if st.trade_history = [] then
    { total_trades := 0, total_profit_krw := 0, win_rate := 0
      current_position := st.current_position.isSome }
  else
    let sell_trades := st.trade_history.filter fun t => t.action.isExit
    let total_profit := (sell_trades.map fun t => t.profit_krw.getD 0).sum
    let winning_trades := (sell_trades.filter fun t => 0 < t.profit_ratio.getD 0).length
    { total_trades := sell_trades.length
      total_profit_krw := total_profit
      win_rate :=
        if sell_trades ≠ [] then (winning_trades : ℚ) / (sell_trades.length : ℚ) * 100
        else 0
      current_position := st.current_position.isSome }

/-- The total profit of the simulated exit records alone: what claim C10
says `total_profit_krw` actually measures. -/
def sim_exit_profit_total (history : List TradeRecord) : ℚ :=
  ((history.filter fun t => t.simulation && t.action.isExit).map
    fun t => t.profit_krw.getD 0).sum

/-- The Signal Generator decision table as the specification states it, for a
success snapshot: HOLD whenever `volume_ratio < 0.5` or the absolute price
change is below the configured minimum; otherwise BUY exactly when there is
no open position, the short MA is above the long MA, and RSI lies strictly
between the oversold and overbought thresholds; SELL exactly when a position
is open and either (dead cross and RSI above oversold) or RSI above
overbought; HOLD in all remaining cases. Stated to be compared with
`generate_signal`. -/
def signal_spec (cfg : Config) (hasPos : Bool) (s : Snapshot) : Signal :=
  if s.volume_ratio < 1/2 ∨ |s.price_change_ratio| < cfg.price_change_threshold then
    .HOLD
  else if hasPos = false ∧ s.long_ma < s.short_ma ∧ cfg.rsi_oversold < s.rsi ∧
      s.rsi < cfg.rsi_overbought then
    .BUY
  else if hasPos = true ∧
      ((s.short_ma < s.long_ma ∧ cfg.rsi_oversold < s.rsi) ∨
        cfg.rsi_overbought < s.rsi) then
    .SELL
  else .HOLD

/-- The Risk Manager decision rule as the specification states it: with
`profitRatio = (current − entry) / entry`, in priority order stop loss, take
profit, holding-time limit, else none. Stated to be compared with
`check_risk_management`. -/
def risk_spec (cfg : Config) (now : ℚ) (pos : Position) (current_price : ℚ) :
    Option Signal :=
  let profitRatio := (current_price - pos.entry_price) / pos.entry_price
  if profitRatio ≤ cfg.stop_loss_ratio then some .STOP_LOSS
  else if cfg.take_profit_ratio ≤ profitRatio then some .TAKE_PROFIT
  else if cfg.max_holding_time ≤ now - pos.entry_time then some .TIME_LIMIT
  else none

/-- Concrete fixtures used to evaluate the embedding at specific inputs. -/
def st_empty : TState :=
  { current_position := none, trade_history := [], last_trade_time := none }

/-- A single flat candle. -/
def candle_flat : Candle := ⟨100, 10⟩

/-- An environment whose candle fetch returned exactly one candle. -/
def env_short : Env :=
  { candles := [candle_flat], now := 0, accounts_ok := true, krw_balance := 0
    crypto_balance := 0, order_ok := true }

/-- An environment whose candle fetch failed (`get_candle_data` returns `[]`). -/
def env_fetch_fail : Env :=
  { candles := [], now := 0, accounts_ok := true, krw_balance := 0
    crypto_balance := 0, order_ok := true }

/-- The default configuration switched to live mode. -/
def cfg_live : Config := { get_default_config with simulation_mode := false }

/-- An open position entered at price 100 and time 0 with 1000 KRW. -/
def pos_open : Position := ⟨100, 0, 1000⟩

/-- A state holding the open position `pos_open`. -/
def st_open : TState :=
  { current_position := some pos_open, trade_history := [], last_trade_time := none }

/-- An environment where `get_accounts` succeeds but reports a zero crypto
balance. -/
def env_zero_balance : Env :=
  { candles := [], now := 1, accounts_ok := true, krw_balance := 0
    crypto_balance := 0, order_ok := true }

/-- A one-candle configuration (all periods 1) whose stop-loss threshold 0
makes the flat candle of `env_short` trip the stop loss immediately. -/
def cfg_tiny : Config :=
  { get_default_config with
    long_ma_period := 1, short_ma_period := 1, rsi_period := 1, stop_loss_ratio := 0 }

/-- The snapshot `analyze_market cfg_tiny [candle_flat]` produces. -/
def snap_flat : Snapshot :=
  { current_price := 100, price_change_ratio := 0, short_ma := 100, long_ma := 100
    rsi := 50, current_volume := 10, avg_volume := 10, volume_ratio := 1 }

/-- C8: the Risk Manager checks, for an open position with
`profitRatio = (current − entry) / entry`, stop loss, take profit and the
holding-time limit in exactly that priority order, returning at most one
action, and `none` when no position is open; in particular
`entry_price = 50,000,000`, `current_price = 48,400,000` with
`stop_loss_ratio = −0.03` yields `STOP_LOSS` (profit ratio −0.032). -/
theorem check_risk_management_priority_order :
    (∀ (cfg : Config) (now : ℚ) (pos : Position) (current_price : ℚ),
        check_risk_management cfg now (some pos) current_price =
          risk_spec cfg now pos current_price ∧
        check_risk_management cfg now none current_price = none) ∧
      check_risk_management get_default_config 0 (some ⟨50000000, 0, 100000⟩)
          48400000 = some .STOP_LOSS := by
  refine ⟨fun cfg now pos current_price => ⟨rfl, rfl⟩, ?_⟩
  norm_num [check_risk_management, get_default_config]

set_option maxHeartbeats 1000000 in
/-- C6: for every success snapshot, `generate_signal` implements exactly the
specified decision table — HOLD on `volume_ratio < 0.5` or
`|price_change_ratio|` below the configured minimum; otherwise BUY exactly
when there is no open position, `short_ma > long_ma` and
`rsi_oversold < rsi < rsi_overbought`; SELL exactly when a position is open
and either (`short_ma < long_ma` and `rsi > rsi_oversold`) or
`rsi > rsi_overbought`; HOLD in all remaining cases. -/
theorem generate_signal_decision_rules :
    ∀ (cfg : Config) (hasPos : Bool) (s : Snapshot),
      generate_signal cfg hasPos (.success s) = signal_spec cfg hasPos s := by
  intro cfg hasPos s
  cases hasPos <;>
    · simp only [generate_signal, signal_spec, gt_iff_lt]
      split_ifs <;> first | rfl | tauto

/-- Every element of a Python tail slice is an element of the list. -/
theorem sliceLast_subset (l : List ℚ) (n : Nat) : ∀ x ∈ sliceLast l n, x ∈ l := by
  intro x hx
  unfold sliceLast at hx
  split_ifs at hx
  · exact hx
  · exact List.mem_of_mem_drop hx

/-- Gains are nonnegative. -/
theorem gainsOf_nonneg (prices : List ℚ) : ∀ x ∈ gainsOf prices, 0 ≤ x := by
  intro x hx
  simp only [gainsOf, List.mem_map] at hx
  obtain ⟨d, _, rfl⟩ := hx
  split_ifs with h
  · exact le_of_lt h
  · exact le_refl 0

/-- Losses are nonnegative. -/
theorem lossesOf_nonneg (prices : List ℚ) : ∀ x ∈ lossesOf prices, 0 ≤ x := by
  intro x hx
  simp only [lossesOf, List.mem_map] at hx
  obtain ⟨d, _, rfl⟩ := hx
  split_ifs with h
  · linarith
  · exact le_refl 0

/-- On a strictly increasing price series every delta is positive. -/
theorem deltasOf_pos : ∀ prices : List ℚ, List.Chain' (· < ·) prices →
    ∀ x ∈ deltasOf prices, 0 < x
  | [], _, x, hx => by simp [deltasOf] at hx
  | [a], _, x, hx => by simp [deltasOf] at hx
  | a :: b :: r, h, x, hx => by
      rw [show deltasOf (a :: b :: r) = (b - a) :: deltasOf (b :: r) from rfl] at hx
      rcases List.mem_cons.mp hx with rfl | hx'
      · have hab := (List.chain'_cons.mp h).1
        simp only at hab
        linarith
      · exact deltasOf_pos (b :: r) (List.chain'_cons.mp h).2 x hx'

/-- On a strictly decreasing price series every delta is negative. -/
theorem deltasOf_neg : ∀ prices : List ℚ, List.Chain' (· > ·) prices →
    ∀ x ∈ deltasOf prices, x < 0
  | [], _, x, hx => by simp [deltasOf] at hx
  | [a], _, x, hx => by simp [deltasOf] at hx
  | a :: b :: r, h, x, hx => by
      rw [show deltasOf (a :: b :: r) = (b - a) :: deltasOf (b :: r) from rfl] at hx
      rcases List.mem_cons.mp hx with rfl | hx'
      · have hab := (List.chain'_cons.mp h).1
        simp only [gt_iff_lt] at hab
        linarith
      · exact deltasOf_neg (b :: r) (List.chain'_cons.mp h).2 x hx'

/-- There is one delta fewer than there are prices. -/
theorem deltasOf_length : ∀ prices : List ℚ, (deltasOf prices).length = prices.length - 1
  | [] => rfl
  | [_] => rfl
  | a :: b :: r => by
      have h := deltasOf_length (b :: r)
      simp only [deltasOf, List.length_cons] at h ⊢
      omega

/-- A nontrivial tail slice of a long enough list is nonempty. -/
theorem sliceLast_ne_nil (l : List ℚ) (n : Nat) (hn : n ≠ 0) (hl : n ≤ l.length) :
    sliceLast l n ≠ [] := by
  unfold sliceLast
  rw [if_neg hn]
  intro h
  have h2 := congrArg List.length h
  simp only [List.length_drop, List.length_nil] at h2
  omega

/-- C7: for every price series and positive period, the computed RSI lies in
`[0, 100]`; fewer than `period + 1` prices give the neutral default `50`
without failing; an average loss of exactly `0` gives `100` with no division
by zero; a strictly increasing series of length above the period gives `100`
and a strictly decreasing one gives `0`. -/
theorem calculate_rsi_bounds_and_neutral_policy (prices : List ℚ) (period : Nat)
    (hp : 0 < period) :
    (0 ≤ calculate_rsi prices period ∧ calculate_rsi prices period ≤ 100) ∧
    (prices.length < period + 1 → calculate_rsi prices period = 50) ∧
    (period + 1 ≤ prices.length →
      (sliceLast (lossesOf prices) period).sum / (period : ℚ) = 0 →
      calculate_rsi prices period = 100) ∧
    (period + 1 ≤ prices.length → List.Chain' (· < ·) prices →
      calculate_rsi prices period = 100) ∧
    (period + 1 ≤ prices.length → List.Chain' (· > ·) prices →
      calculate_rsi prices period = 0) := by
  have hgain : 0 ≤ (sliceLast (gainsOf prices) period).sum :=
    List.sum_nonneg fun x hx => gainsOf_nonneg prices x (sliceLast_subset _ _ x hx)
  have hloss : 0 ≤ (sliceLast (lossesOf prices) period).sum :=
    List.sum_nonneg fun x hx => lossesOf_nonneg prices x (sliceLast_subset _ _ x hx)
  have hper : (0 : ℚ) < (period : ℚ) := by exact_mod_cast hp
  refine ⟨?_, ?_, ?_, ?_, ?_⟩
  · simp only [calculate_rsi]
    split_ifs with h1 h2
    · norm_num
    · norm_num
    · have hag : 0 ≤ (sliceLast (gainsOf prices) period).sum / (period : ℚ) :=
        div_nonneg hgain hper.le
      have hal : 0 ≤ (sliceLast (lossesOf prices) period).sum / (period : ℚ) :=
        div_nonneg hloss hper.le
      have hal' : 0 < (sliceLast (lossesOf prices) period).sum / (period : ℚ) :=
        lt_of_le_of_ne hal (Ne.symm h2)
      set rs := (sliceLast (gainsOf prices) period).sum / (period : ℚ) /
        ((sliceLast (lossesOf prices) period).sum / (period : ℚ)) with hrs
      have hrs0 : 0 ≤ rs := div_nonneg hag hal
      have hle : 100 / (1 + rs) ≤ 100 := by
        apply div_le_self (by norm_num)
        linarith
      have hpos : 0 ≤ 100 / (1 + rs) := div_nonneg (by norm_num) (by linarith)
      constructor <;> linarith
  · intro h
    simp only [calculate_rsi, if_pos h]
  · intro h hz
    simp only [calculate_rsi, if_neg (by omega : ¬ prices.length < period + 1),
      hz, if_true]
  · intro h hchain
    have hz : (sliceLast (lossesOf prices) period).sum = 0 := by
      apply List.sum_eq_zero
      intro x hx
      have hx' := sliceLast_subset _ _ x hx
      simp only [lossesOf, List.mem_map] at hx'
      obtain ⟨d, hd, rfl⟩ := hx'
      rw [if_neg (not_lt.mpr (le_of_lt (deltasOf_pos prices hchain d hd)))]
    simp only [calculate_rsi, if_neg (by omega : ¬ prices.length < period + 1),
      hz, zero_div, if_true]
  · intro h hchain
    have hzg : (sliceLast (gainsOf prices) period).sum = 0 := by
      apply List.sum_eq_zero
      intro x hx
      have hx' := sliceLast_subset _ _ x hx
      simp only [gainsOf, List.mem_map] at hx'
      obtain ⟨d, hd, rfl⟩ := hx'
      rw [if_neg (not_lt.mpr (le_of_lt (deltasOf_neg prices hchain d hd)))]
    have hlen : period ≤ (lossesOf prices).length := by
      have hd := deltasOf_length prices
      simp only [lossesOf, List.length_map, hd]
      omega
    have hlp : 0 < (sliceLast (lossesOf prices) period).sum := by
      apply List.sum_pos
      · intro x hx
        have hx' := sliceLast_subset _ _ x hx
        simp only [lossesOf, List.mem_map] at hx'
        obtain ⟨d, hd, rfl⟩ := hx'
        rw [if_pos (deltasOf_neg prices hchain d hd)]
        have hdneg := deltasOf_neg prices hchain d hd
        linarith
      · exact sliceLast_ne_nil _ _ (Nat.pos_iff_ne_zero.mp hp) hlen
    have hal : (0 : ℚ) < (sliceLast (lossesOf prices) period).sum / (period : ℚ) :=
      div_pos hlp hper
    simp only [calculate_rsi, if_neg (by omega : ¬ prices.length < period + 1),
      if_neg (ne_of_gt hal), hzg, zero_div]
    norm_num

/-- Witness for C7 at `period = 1`, `prices = [1, 2]`. -/
theorem calculate_rsi_bounds_and_neutral_policy_witness :
    0 < 1 ∧
    ((0 ≤ calculate_rsi [1, 2] 1 ∧ calculate_rsi [1, 2] 1 ≤ 100) ∧
    (List.length [(1 : ℚ), 2] < 1 + 1 → calculate_rsi [1, 2] 1 = 50) ∧
    (1 + 1 ≤ List.length [(1 : ℚ), 2] →
      (sliceLast (lossesOf [1, 2]) 1).sum / ((1 : Nat) : ℚ) = 0 →
      calculate_rsi [1, 2] 1 = 100) ∧
    (1 + 1 ≤ List.length [(1 : ℚ), 2] → List.Chain' (· < ·) [(1 : ℚ), 2] →
      calculate_rsi [1, 2] 1 = 100) ∧
    (1 + 1 ≤ List.length [(1 : ℚ), 2] → List.Chain' (· > ·) [(1 : ℚ), 2] →
      calculate_rsi [1, 2] 1 = 0)) :=
  ⟨Nat.one_pos, calculate_rsi_bounds_and_neutral_policy [1, 2] 1 Nat.one_pos⟩

/-- An empty candle list never yields a success analysis: the
`insufficient_data` guard fires, or (when `long_ma_period = 0`) the empty
price list hits the exception path. -/
theorem analyze_market_nil_not_success (cfg : Config) (s : Snapshot) :
    analyze_market cfg [] ≠ .success s := by
  unfold analyze_market
  split_ifs
  · simp
  · simp [calculate_moving_average]

/-- With an open position the generator never emits BUY: the BUY branch of
`generate_signal` requires `not self.current_position`. -/
theorem generate_signal_open_ne_buy (cfg : Config) (a : Analysis) :
    generate_signal cfg true a ≠ .BUY := by
  rcases a with _ | _ | s
  · simp [generate_signal]
  · simp [generate_signal]
  · simp only [generate_signal]
    split_ifs <;> simp_all

/-- With no position the generator only ever emits BUY or HOLD: both SELL
branches of `generate_signal` require `self.current_position`. -/
theorem generate_signal_flat_buy_or_hold (cfg : Config) (a : Analysis) :
    generate_signal cfg false a = .BUY ∨ generate_signal cfg false a = .HOLD := by
  rcases a with _ | _ | s
  · exact Or.inr rfl
  · exact Or.inr rfl
  · simp only [generate_signal]
    split_ifs <;> simp_all

/-- Whatever the Risk Manager returns is an exit action. -/
theorem check_risk_management_exit (cfg : Config) (now : ℚ)
    (position : Option Position) (price : ℚ) (a : Signal) :
    check_risk_management cfg now position price = some a → a.isExit = true := by
  intro h
  rcases position with _ | pos
  · simp [check_risk_management] at h
  · simp only [check_risk_management] at h
    split_ifs at h <;>
      first
        | exact Option.noConfusion h
        | (obtain rfl := Option.some.inj h; rfl)

/-- The Execution Dispatcher rejects an exit attempt made while Flat, in both
modes, leaving the state unchanged. -/
theorem execute_trade_flat_exit (cfg : Config) (env : Env) (st : TState)
    (signal : Signal) (price : ℚ) (amount : Option ℚ)
    (hflat : st.current_position = none) (hexit : signal.isExit = true) :
    execute_trade cfg env st signal price amount = (false, st) := by
  rcases hmode : cfg.simulation_mode with _ | _ <;>
    cases signal <;> simp_all [execute_trade, simulate_trade, Signal.isExit]

/-- C1: over strategy cycles the Position Tracker holds zero or one position;
while a position is Open the Signal Generator never emits BUY and no cycle
reports a BUY action; while Flat no cycle reports an exit action, and an exit
attempt reaching the Execution Dispatcher while Flat is rejected with the
position and trade history unchanged. -/
theorem at_most_one_open_position (cfg : Config) (env : Env) (st : TState)
    (a : Analysis) :
    ((run_strategy cfg env st).2.current_position = none ∨
      ∃ p, (run_strategy cfg env st).2.current_position = some p) ∧
    (st.current_position.isSome = true →
      generate_signal cfg st.current_position.isSome a ≠ .BUY ∧
      cycle_action (run_strategy cfg env st).1 ≠ some .BUY) ∧
    (st.current_position = none →
      (∀ x, cycle_action (run_strategy cfg env st).1 = some x → x.isExit = false) ∧
      ∀ (signal : Signal) (price : ℚ) (amount : Option ℚ), signal.isExit = true →
        execute_trade cfg env st signal price amount = (false, st)) := by
  refine ⟨?_, ?_, ?_⟩
  · rcases h : (run_strategy cfg env st).2.current_position with _ | p
    · exact Or.inl rfl
    · exact Or.inr ⟨p, rfl⟩
  · intro hopen
    refine ⟨by rw [hopen]; exact generate_signal_open_ne_buy cfg a, ?_⟩
    unfold run_strategy run_strategy_with
    split_ifs with hc
    · simp [cycle_action]
    · rcases hana : analyze_market cfg env.candles with _ | _ | s
      · simp [cycle_action, hana]
      · simp [cycle_action, hana]
      · rcases hrisk : check_risk_management cfg env.now st.current_position
            s.current_price with _ | r
        · rcases hsig : generate_signal cfg st.current_position.isSome (.success s)
              with _ | _ | _ | _ | _ | _
          · rw [hopen] at hsig
            exact absurd hsig (generate_signal_open_ne_buy cfg _)
          all_goals simp [cycle_action, hana, hrisk, hsig]
        · have hr := check_risk_management_exit cfg env.now st.current_position
            s.current_price r hrisk
          cases r <;> simp_all [cycle_action, Signal.isExit]
  · intro hflat
    constructor
    · intro x hx
      unfold run_strategy run_strategy_with at hx
      split_ifs at hx with hc
      · simp [cycle_action] at hx
      · rcases hana : analyze_market cfg env.candles with _ | _ | s <;>
          rw [hana] at hx
        · simp [cycle_action] at hx
        · simp [cycle_action] at hx
        · rw [hflat] at hx
          simp only [check_risk_management, Option.isSome_none] at hx
          rcases generate_signal_flat_buy_or_hold cfg (.success s) with h1 | h1 <;>
            rw [h1] at hx <;> cases x <;> simp_all [cycle_action, Signal.isExit]
    · intro signal price amount hexit
      exact execute_trade_flat_exit cfg env st signal price amount hflat hexit

/-- C2: in any cycle where the Risk Manager returns a non-none action for the
current position, the cycle executes exactly that action, and the Signal
Generator is never consulted — the cycle's result and state are identical
under every generator, so no generator output can be executed in that
cycle. -/
theorem risk_exit_preempts_signal_generator
    (gen : Config → Bool → Analysis → Signal) (cfg : Config) (env : Env)
    (st : TState) (s : Snapshot) (a : Signal)
    (hana : analyze_market cfg env.candles = .success s)
    (hrisk : check_risk_management cfg env.now st.current_position
      s.current_price = some a) :
    run_strategy_with gen cfg env st = run_strategy cfg env st ∧
      run_strategy_with gen cfg env st =
        (CycleResult.success a s.current_price
            (some (execute_trade cfg env st a s.current_price none).1),
          (execute_trade cfg env st a s.current_price none).2) := by
  have hne : env.candles ≠ [] := by
    intro h
    rw [h] at hana
    exact analyze_market_nil_not_success cfg s hana
  constructor
  · simp only [run_strategy, run_strategy_with, if_neg hne, hana, hrisk]
  · simp only [run_strategy_with, if_neg hne, hana, hrisk]

/-- Witness for C2: a one-candle environment whose flat candle trips the
stop loss of `cfg_tiny`, under an adversarial generator that always answers
BUY. -/
theorem risk_exit_preempts_signal_generator_witness :
    (analyze_market cfg_tiny env_short.candles = .success snap_flat ∧
      check_risk_management cfg_tiny env_short.now st_open.current_position
          snap_flat.current_price = some .STOP_LOSS) ∧
    (run_strategy_with (fun _ _ _ => .BUY) cfg_tiny env_short st_open =
        run_strategy cfg_tiny env_short st_open ∧
      run_strategy_with (fun _ _ _ => .BUY) cfg_tiny env_short st_open =
        (CycleResult.success .STOP_LOSS snap_flat.current_price
            (some (execute_trade cfg_tiny env_short st_open .STOP_LOSS
              snap_flat.current_price none).1),
          (execute_trade cfg_tiny env_short st_open .STOP_LOSS
            snap_flat.current_price none).2)) :=
  ⟨⟨by norm_num [analyze_market, cfg_tiny, get_default_config, env_short,
      candle_flat, calculate_moving_average, calculate_rsi, sliceLast, snap_flat],
    by norm_num [check_risk_management, cfg_tiny, get_default_config, env_short,
      st_open, pos_open, snap_flat]⟩,
    risk_exit_preempts_signal_generator (fun _ _ _ => .BUY) cfg_tiny env_short
      st_open snap_flat .STOP_LOSS
      (by norm_num [analyze_market, cfg_tiny, get_default_config, env_short,
        candle_flat, calculate_moving_average, calculate_rsi, sliceLast, snap_flat])
      (by norm_num [check_risk_management, cfg_tiny, get_default_config, env_short,
        st_open, pos_open, snap_flat])⟩

/-- Counterexample to C3 as stated: with the default configuration and a
single candle (fewer than `long_ma_period = 20`), the Market Analyzer does
return `insufficient_data`, but the published cycle result is an error-status
result, not a HOLD-action success result. -/
theorem insufficient_data_error_status_cex :
    analyze_market get_default_config env_short.candles = .insufficient_data ∧
      run_strategy get_default_config env_short st_empty =
        (.error_result "market analysis failed", st_empty) := by
  constructor
  · simp [analyze_market, get_default_config, env_short, candle_flat]
  · simp [run_strategy, run_strategy_with, analyze_market, get_default_config,
      env_short, candle_flat, st_empty]

/-- C3 as amended: for every nonempty candle list shorter than
`long_ma_period`, the Market Analyzer returns an explicit
`insufficient_data` result and the cycle publishes an error-status result
("market analysis failed") with no state mutation — not a HOLD-action
success result. -/
theorem insufficient_data_is_error_not_hold (cfg : Config) (env : Env)
    (st : TState) (hne : env.candles ≠ [])
    (hlen : env.candles.length < cfg.long_ma_period) :
    analyze_market cfg env.candles = .insufficient_data ∧
      run_strategy cfg env st = (.error_result "market analysis failed", st) := by
  have ha : analyze_market cfg env.candles = .insufficient_data := by
    unfold analyze_market
    rw [if_pos hlen]
  refine ⟨ha, ?_⟩
  simp only [run_strategy, run_strategy_with, if_neg hne, ha]

/-- Witness for the amended C3 at the default configuration with one
candle. -/
theorem insufficient_data_is_error_not_hold_witness :
    (env_short.candles ≠ [] ∧
      env_short.candles.length < get_default_config.long_ma_period) ∧
    (analyze_market get_default_config env_short.candles = .insufficient_data ∧
      run_strategy get_default_config env_short st_empty =
        (.error_result "market analysis failed", st_empty)) :=
  ⟨⟨by simp [env_short], by simp [env_short, get_default_config]⟩,
    insufficient_data_is_error_not_hold get_default_config env_short st_empty
      (by simp [env_short]) (by simp [env_short, get_default_config])⟩

/-- Counterexample to C4 as stated: a live-mode exit attempt with an open
position and a zero reported crypto balance fails (`False` is returned, no
record appended) and yet performs a position transition — the local position
is cleared, so "on failure neither occurs" is violated. -/
theorem failed_exit_clears_position_cex :
    (execute_trade cfg_live env_zero_balance st_open .SELL 100 none).1 = false ∧
      (execute_trade cfg_live env_zero_balance st_open .SELL 100
          none).2.current_position = none ∧
      st_open.current_position = some pos_open := by
  refine ⟨?_, ?_, rfl⟩
  · simp [execute_trade, cfg_live, get_default_config, env_zero_balance, st_open]
  · simp [execute_trade, cfg_live, get_default_config, env_zero_balance, st_open]

/-- C4 as amended: on success `execute_trade` appends exactly one TradeRecord
and performs exactly one transition (to Open for BUY; Open→Flat for an exit);
on failure no record is appended and the position is unchanged, except on the
zero-balance reconciliation path — a live exit with an open position, a
successful balance read and a held quantity ≤ 0 — where the position is
cleared with still no record appended. -/
theorem execute_trade_side_effect_atomicity (cfg : Config) (env : Env)
    (st : TState) (signal : Signal) (current_price : ℚ) (amount : Option ℚ) :
    ((execute_trade cfg env st signal current_price amount).1 = true →
      (∃ r, (execute_trade cfg env st signal current_price amount).2.trade_history =
          st.trade_history ++ [r]) ∧
      (signal = .BUY →
        ∃ p, (execute_trade cfg env st signal current_price
          amount).2.current_position = some p) ∧
      (signal.isExit = true →
        st.current_position.isSome = true ∧
        (execute_trade cfg env st signal current_price amount).2.current_position =
          none)) ∧
    ((execute_trade cfg env st signal current_price amount).1 = false →
      (execute_trade cfg env st signal current_price amount).2.trade_history =
        st.trade_history ∧
      ((execute_trade cfg env st signal current_price amount).2.current_position =
          st.current_position ∨
        (cfg.simulation_mode = false ∧ signal.isExit = true ∧
          st.current_position.isSome = true ∧ env.accounts_ok = true ∧
          env.crypto_balance ≤ 0 ∧
          (execute_trade cfg env st signal current_price
            amount).2.current_position = none))) := by
  rcases hmode : cfg.simulation_mode with _ | _ <;>
    cases signal <;>
      rcases hpos : st.current_position with _ | pos <;>
        simp_all [execute_trade, simulate_trade, Signal.isExit] <;>
          split_ifs <;> simp_all

/-- C5: in live mode, an exit attempt with an open position whose held
quantity read back from the exchange is zero or less submits no order (the
result is the same whatever `place_order` would answer), is reported as
failed, and forcibly reconciles the Position Tracker to Flat. -/
theorem zero_balance_exit_reconciles_flat (cfg : Config) (env : Env)
    (st : TState) (pos : Position) (signal : Signal) (current_price : ℚ)
    (amount : Option ℚ) (hmode : cfg.simulation_mode = false)
    (hpos : st.current_position = some pos) (hexit : signal.isExit = true)
    (hacc : env.accounts_ok = true) (hbal : env.crypto_balance ≤ 0) :
    execute_trade cfg env st signal current_price amount =
        (false, { st with current_position := none }) ∧
      ∀ b : Bool,
        execute_trade cfg { env with order_ok := b } st signal current_price
            amount =
          (false, { st with current_position := none }) := by
  constructor
  · cases signal <;> simp_all [execute_trade, Signal.isExit]
  · intro b
    cases signal <;> simp_all [execute_trade, Signal.isExit]

/-- Witness for C5: live default configuration, open position, zero reported
crypto balance, SELL at price 100. -/
theorem zero_balance_exit_reconciles_flat_witness :
    (cfg_live.simulation_mode = false ∧
      st_open.current_position = some pos_open ∧
      Signal.SELL.isExit = true ∧ env_zero_balance.accounts_ok = true ∧
      env_zero_balance.crypto_balance ≤ 0) ∧
    (execute_trade cfg_live env_zero_balance st_open .SELL 100 none =
        (false, { st_open with current_position := none }) ∧
      ∀ b : Bool,
        execute_trade cfg_live { env_zero_balance with order_ok := b } st_open
            .SELL 100 none =
          (false, { st_open with current_position := none })) :=
  ⟨⟨rfl, rfl, rfl, rfl, by norm_num [env_zero_balance]⟩,
    zero_balance_exit_reconciles_flat cfg_live env_zero_balance st_open pos_open
      .SELL 100 none rfl rfl rfl rfl (by norm_num [env_zero_balance])⟩

/-- Counterexample to C9 as stated: a cycle that fails on candle fetch is
reported as an error-status result, and after any returned result — this one
included — the thread waits `trade_interval * 1000 = 300000` ms, not
60 seconds. -/
theorem failed_cycle_normal_delay_cex :
    run_strategy get_default_config env_fetch_fail st_empty =
        (.error_result "candle fetch failed", st_empty) ∧
      thread_delay_ms get_default_config
          (.cycle_result
            (run_strategy get_default_config env_fetch_fail st_empty).1) =
        300000 ∧
      (300000 : Nat) ≠ 60000 := by
  refine ⟨?_, ?_, by decide⟩
  · simp [run_strategy, run_strategy_with, env_fetch_fail]
  · simp [run_strategy, run_strategy_with, env_fetch_fail, thread_delay_ms,
      get_default_config]

/-- C9 as amended: a failing cycle does not crash the loop — `run_strategy`
converts the failure (for example a candle fetch failure) into an
error-status result with no state mutation, which the thread reports — and
the loop then waits the normal `trade_interval` before the next cycle; the
fixed 60-second backoff applies only when an exception escapes the thread's
own result handling, never to a cycle that failed with an error-status
result. -/
theorem cycle_failure_report_and_delay (cfg : Config) (env : Env) (st : TState)
    (r : CycleResult) :
    thread_delay_ms cfg (.cycle_result r) = cfg.trade_interval * 1000 ∧
    thread_delay_ms cfg .loop_exception = 60000 ∧
    (env.candles = [] →
      run_strategy cfg env st = (.error_result "candle fetch failed", st)) := by
  refine ⟨rfl, rfl, ?_⟩
  intro h
  simp only [run_strategy, run_strategy_with, if_pos h]

/-- Exit records whose live-mode entries carry no `profit_krw` contribute `0`
to the profit sum, so the sum over all exit records equals the sum over the
simulated ones. -/
theorem profit_sum_filter (l : List TradeRecord)
    (h : ∀ t ∈ l, t.action.isExit = true → t.simulation = false →
      t.profit_krw = none) :
    ((l.filter fun t => t.action.isExit).map fun t => t.profit_krw.getD 0).sum =
      sim_exit_profit_total l := by
  induction l with
  | nil => rfl
  | cons t l ih =>
      have ht := h t (List.mem_cons_self t l)
      have hrest : ∀ u ∈ l, u.action.isExit = true → u.simulation = false →
          u.profit_krw = none := fun u hu => h u (List.mem_cons_of_mem t hu)
      have ih' := ih hrest
      unfold sim_exit_profit_total at ih' ⊢
      rcases hex : t.action.isExit with _ | _
      · simp [List.filter_cons, hex, ih']
      · rcases hsim : t.simulation with _ | _
        · have hnone := ht hex hsim
          simp [List.filter_cons, hex, hsim, hnone, ih']
        · simp [List.filter_cons, hex, hsim, ih']

/-- C10: the Execution Dispatcher appends live records without a
`profit_krw` field and simulated exit records with one; consequently, for
every trade history it generates, `total_profit_krw` equals the sum of the
`profit_krw` fields of the simulated exit records alone, while
`total_trades` still counts every exit record, live ones included. -/
theorem total_profit_counts_only_simulated_exits :
    (∀ (cfg : Config) (env : Env) (st : TState) (signal : Signal)
        (current_price : ℚ) (amount : Option ℚ),
      ∃ l, (execute_trade cfg env st signal current_price amount).2.trade_history =
          st.trade_history ++ l ∧
        ∀ t ∈ l, (t.simulation = false → t.profit_krw = none) ∧
          (t.simulation = true → t.action.isExit = true →
            ∃ q, t.profit_krw = some q)) ∧
    (∀ st : TState,
      (∀ t ∈ st.trade_history, t.action.isExit = true → t.simulation = false →
        t.profit_krw = none) →
      (get_performance_summary st).total_profit_krw =
        sim_exit_profit_total st.trade_history) ∧
    (∀ st : TState, (get_performance_summary st).total_trades =
      (st.trade_history.filter fun t => t.action.isExit).length) := by
  refine ⟨?_, ?_, ?_⟩
  · intro cfg env st signal current_price amount
    rcases hmode : cfg.simulation_mode with _ | _ <;>
      cases signal <;>
        rcases hpos : st.current_position with _ | pos <;>
          simp_all [execute_trade, simulate_trade, Signal.isExit] <;>
            split_ifs <;> simp_all
  · intro st hwf
    rcases hh : st.trade_history with _ | ⟨t, l⟩
    · simp [get_performance_summary, hh, sim_exit_profit_total]
    · rw [← hh]
      have hne : st.trade_history ≠ [] := by rw [hh]; simp
      simp only [get_performance_summary, if_neg hne]
      exact profit_sum_filter st.trade_history hwf
  · intro st
    rcases hh : st.trade_history with _ | ⟨t, l⟩
    · simp [get_performance_summary, hh]
    · have hne : st.trade_history ≠ [] := by rw [hh]; simp
      simp only [get_performance_summary, if_neg hne]
      rw [hh]

end Upbit
